import Mathlib

/-!
A shallow embedding of the eval-go text-evaluation library.

Modelling conventions used throughout:
* Go strings are modelled as Lean `String`; Go `[]T` as `List T`.
* Go `float64` scores are modelled as `ℚ`; every claim settled here is about
  the structure of score computations (guards, counts, orderings, bounds on
  ratios of small integer counts), none depends on rounding behaviour.
* A Go `context.Context` is observed only through its `Err()` method in this
  library, so it is modelled by that observation: `none` means a live context,
  `some k` an already-cancelled or expired one.
* A Go call that may return `(value, error)` or panic is modelled by the
  `Outcome` type below: `.ok v` for a nil-error return, `.error e` for a
  non-nil error (the value returned alongside is always nil in this code,
  which is why `.error` carries no partial results), `.panic` for a runtime
  panic such as an out-of-range slice index.
* Go `map[string]float64` is modelled by an association list with
  overwrite-on-insert (`mapInsert` / `mapGet` below).
-/

namespace EvalGo

/-- The two error values a done Go context can report:
context.Canceled and context.DeadlineExceeded. -/
inductive CtxErrKind where
  | canceled
  | deadlineExceeded
deriving DecidableEq, Repr

/-- A context, observed through its Err method: none when live,
some kind when already done. -/
structure Context where
  err : Option CtxErrKind
deriving DecidableEq, Repr

/-- context.Background(): a context that is never done. -/
def Context.background : Context := ⟨none⟩

/-- The errors produced by the library, one constructor per distinct
fmt.Errorf format string in the source (each carries exactly the data the
format string interpolates), plus ctxError for a propagated context error
and custom for errors produced by user-supplied metric functions. -/
inductive EvalError where
  | ctxError (k : CtxErrKind)
  | noInstances
  | noReferences
  | noPredictions
  | instanceCountMismatch (instances predictions : Nat)
  | refCountMismatch (references predictions : Nat)
  | metricFailed (name : String) (cause : EvalError)
  | pairwiseMetricFailed (name : String) (cause : EvalError)
  | pointwiseMetricFailed (name : String) (cause : EvalError)
  | pairwiseScoreCount (name : String) (got expected : Nat)
  | pointwiseScoreCount (name : String) (got expected : Nat)
  | custom (msg : String)
deriving DecidableEq, Repr

/-- Outcome of running a Go function that returns ([]float64, error) or a
whole Run: a successful value, a returned error (with nil results), or a
runtime panic. -/
inductive Outcome (α : Type) where
  | ok (val : α)
  | error (e : EvalError)
  | panic
deriving DecidableEq, Repr

/-- True exactly on a successful outcome. -/
def Outcome.isOk {α : Type} : Outcome α → Bool
  | .ok _ => true
  | _ => false

/-- The scores carried by a successful outcome, [] otherwise
(proof-side accessor, used only to name the scores a compute call
produced once it is known to have succeeded). -/
def Outcome.scores : Outcome (List ℚ) → List ℚ
  | .ok s => s
  | _ => []

/-- PairwiseMetricFunc from types.go. -/
abbrev PairwiseMetricFunc := Context → List String → List String → Outcome (List ℚ)

/-- PointwiseMetricFunc from types.go. -/
abbrev PointwiseMetricFunc := Context → List String → Outcome (List ℚ)

/-- PairwiseScoreFunc from types.go. -/
abbrev PairwiseScoreFunc := ℚ → ℚ → ℚ

/-- Instance from types.go. -/
structure Instance where
  Reference : String
  Prediction : String
deriving DecidableEq, Repr

/-- Go map[string]float64, modelled as an association list with
unique keys maintained by mapInsert. -/
abbrev MetricResults := List (String × ℚ)

/-- Go map assignment m[k] = v: overwrite the entry for k in place when
present, append a new entry otherwise. -/
def mapInsert : MetricResults → String → ℚ → MetricResults
  | [], k, v => [(k, v)]
  | (k0, v0) :: rest, k, v =>
    if k0 = k then (k, v) :: rest else (k0, v0) :: mapInsert rest k v

/-- Go map lookup m[k]. -/
def mapGet : MetricResults → String → Option ℚ
  | [], _ => none
  | (k0, v0) :: rest, k => if k0 = k then some v0 else mapGet rest k

/-- PairwiseResult from types.go. -/
structure PairwiseResult where
  Instance : Instance
  MetricResults : MetricResults
deriving DecidableEq, Repr

/-- PointwiseResult from types.go. -/
structure PointwiseResult where
  Prediction : String
  MetricResults : MetricResults
deriving DecidableEq, Repr

/-- PairwiseMetric: a named wrapper holding a raw compute function
(field compute is lowercase private in the source). -/
structure PairwiseMetric where
  Name : String
  Description : String
  compute : PairwiseMetricFunc

/-- PointwiseMetric: a named wrapper holding a raw compute function. -/
structure PointwiseMetric where
  Name : String
  Description : String
  compute : PointwiseMetricFunc

/-- NewPairwiseMetric from the metric-wrapper source file. -/
def NewPairwiseMetric (name description : String) (compute : PairwiseMetricFunc) :
    PairwiseMetric :=
  { Name := name, Description := description, compute := compute }

/-- NewPointwiseMetric from the metric-wrapper source file. -/
def NewPointwiseMetric (name description : String) (compute : PointwiseMetricFunc) :
    PointwiseMetric :=
  { Name := name, Description := description, compute := compute }

/-- PairwiseMetric.Compute: check the context, validate that references are
non-empty and that reference and prediction counts match, then delegate to
the wrapped function. -/
def PairwiseMetric.Compute (m : PairwiseMetric) (ctx : Context)
    (references predictions : List String) : Outcome (List ℚ) :=
  match ctx.err with
  | some k => .error (.ctxError k)
  | none =>
    if references.length = 0 then .error .noReferences
    else if references.length ≠ predictions.length then
      .error (.refCountMismatch references.length predictions.length)
    else m.compute ctx references predictions

/-- PointwiseMetric.Compute: check the context, validate that predictions are
non-empty, then delegate to the wrapped function. -/
def PointwiseMetric.Compute (m : PointwiseMetric) (ctx : Context)
    (predictions : List String) : Outcome (List ℚ) :=
  match ctx.err with
  | some k => .error (.ctxError k)
  | none =>
    if predictions.length = 0 then .error .noPredictions
    else m.compute ctx predictions

/-- The loop inside ToPairwise that fills scores[i] with
scoreFunc(referenceScores[i], predictionScores[i]) for i in range of the
references slice (whose length is the first argument); indexing past the
end of either score slice is a runtime panic. -/
def combineScores (scoreFunc : PairwiseScoreFunc) :
    Nat → List ℚ → List ℚ → Outcome (List ℚ)
  | 0, _, _ => .ok []
  | n + 1, r :: rs, p :: ps =>
    match combineScores scoreFunc n rs ps with
    | .ok rest => .ok (scoreFunc r p :: rest)
    | o => o
  | _ + 1, [], _ => .panic
  | _ + 1, _ :: _, [] => .panic

/-- PointwiseMetric.ToPairwise: a pairwise metric with the same name and
description whose compute scores the references, then the predictions, with
the wrapped pointwise metric and combines the two score vectors index-wise
with scoreFunc. -/
def PointwiseMetric.ToPairwise (m : PointwiseMetric) (scoreFunc : PairwiseScoreFunc) :
    PairwiseMetric :=
  NewPairwiseMetric m.Name m.Description
    (fun ctx references predictions =>
      match m.Compute ctx references with
      | .error e => .error e
      | .panic => .panic
      | .ok referenceScores =>
        match m.Compute ctx predictions with
        | .error e => .error e
        | .panic => .panic
        | .ok predictionScores =>
          combineScores scoreFunc references.length referenceScores predictionScores)

/-- DifferenceScore from the metric-wrapper source file. -/
def DifferenceScore (referenceScore predictionScore : ℚ) : ℚ :=
  predictionScore - referenceScore

/-- RatioScore from the metric-wrapper source file: 0 when the reference
score is 0, otherwise the quotient. -/
def RatioScore (referenceScore predictionScore : ℚ) : ℚ :=
  if referenceScore = 0 then 0
  else predictionScore / referenceScore

/-- AbsoluteDifferenceScore from the metric-wrapper source file. -/
def AbsoluteDifferenceScore (referenceScore predictionScore : ℚ) : ℚ :=
  let diff := predictionScore - referenceScore
  if diff < 0 then -diff else diff

/-- MaxScore from the metric-wrapper source file. -/
def MaxScore (referenceScore predictionScore : ℚ) : ℚ :=
  if referenceScore > predictionScore then referenceScore else predictionScore

/-- MinScore from the metric-wrapper source file. -/
def MinScore (referenceScore predictionScore : ℚ) : ℚ :=
  if referenceScore < predictionScore then referenceScore else predictionScore

/-- AverageScore from the metric-wrapper source file. -/
def AverageScore (referenceScore predictionScore : ℚ) : ℚ :=
  (referenceScore + predictionScore) / 2

/-!
The evaluation runners. Every Run variant contains the same score-writing
loop, Go `for i, score := range scores { results[i].MetricResults[name] = score }`:
it walks the score slice, writing score i into result i, and indexes the
results slice out of range (a panic) when the scores outnumber the results;
when the scores run out early the remaining results are left untouched.
The loop is embedded once (writeScores, with the per-result update function
as a parameter) and the per-metric loop shared by the Run bodies once
(runMetricLoop, parameterized by how a metric is computed, named, and how
its failure is wrapped); each Run instantiates them exactly as its source
file does.
-/

/-- The score-writing loop: write score i into result i, panicking when the
scores outnumber the results. -/
def writeScores {α : Type} (update : α → ℚ → α) :
    List ℚ → List α → Outcome (List α)
  | [], results => .ok results
  | _ :: _, [] => .panic
  | score :: rest, r :: rs =>
    match writeScores update rest rs with
    | .ok rs2 => .ok (update r score :: rs2)
    | o => o

/-- The per-metric loop shared by the Run bodies that have no score-count
check (PairwiseEvaluation.Run, PointwiseEvaluation.Run, and the combined
Evaluation.Run of evaluation.go): compute the metric over the whole batch,
return a wrapped failure on error, otherwise write the scores and continue
with the next metric. -/
def runMetricLoop {μ α : Type} (wrap : String → EvalError → EvalError)
    (computeOf : μ → Outcome (List ℚ)) (nameOf : μ → String)
    (update : String → α → ℚ → α) :
    List μ → List α → Outcome (List α)
  | [], results => .ok results
  | m :: rest, results =>
    match computeOf m with
    | .error e => .error (wrap (nameOf m) e)
    | .panic => .panic
    | .ok scores =>
      match writeScores (update (nameOf m)) scores results with
      | .ok results2 => runMetricLoop wrap computeOf nameOf update rest results2
      | .error e => .error e
      | .panic => .panic

/-- The per-metric loop of the eval.go Run variant, which additionally fails
with a score-count error when a metric returns a number of scores different
from the expected batch size. -/
def runMetricLoopChecked {μ α : Type} (wrap : String → EvalError → EvalError)
    (wrapCount : String → Nat → Nat → EvalError) (expected : Nat)
    (computeOf : μ → Outcome (List ℚ)) (nameOf : μ → String)
    (update : String → α → ℚ → α) :
    List μ → List α → Outcome (List α)
  | [], results => .ok results
  | m :: rest, results =>
    match computeOf m with
    | .error e => .error (wrap (nameOf m) e)
    | .panic => .panic
    | .ok scores =>
      if scores.length ≠ expected then
        .error (wrapCount (nameOf m) scores.length expected)
      else
        match writeScores (update (nameOf m)) scores results with
        | .ok results2 =>
          runMetricLoopChecked wrap wrapCount expected computeOf nameOf update rest results2
        | .error e => .error e
        | .panic => .panic

/-- PairwiseEvaluation from the runner source file. -/
structure PairwiseEvaluation where
  Name : String
  Description : String
  metrics : List PairwiseMetric

/-- PointwiseEvaluation from the runner source file. -/
structure PointwiseEvaluation where
  Name : String
  Description : String
  metrics : List PointwiseMetric

/-- NewPairwiseEvaluation. -/
def NewPairwiseEvaluation (name description : String) (metrics : List PairwiseMetric) :
    PairwiseEvaluation :=
  { Name := name, Description := description, metrics := metrics }

/-- NewPointwiseEvaluation. -/
def NewPointwiseEvaluation (name description : String) (metrics : List PointwiseMetric) :
    PointwiseEvaluation :=
  { Name := name, Description := description, metrics := metrics }

/-- The update performed by one score write on a PairwiseResult:
results[i].MetricResults[name] = score. -/
def PairwiseResult.write (name : String) (r : PairwiseResult) (score : ℚ) :
    PairwiseResult :=
  { r with MetricResults := mapInsert r.MetricResults name score }

/-- The update performed by one score write on a PointwiseResult. -/
def PointwiseResult.write (name : String) (r : PointwiseResult) (score : ℚ) :
    PointwiseResult :=
  { r with MetricResults := mapInsert r.MetricResults name score }

/-- PairwiseEvaluation.Run: check the context, reject an empty batch, extract
references and predictions from the instances, seed one result per instance
with an empty score map, then run every metric in registration order,
wrapping a metric failure as a metric-failed error. -/
def PairwiseEvaluation.Run (e : PairwiseEvaluation) (ctx : Context)
    (instances : List Instance) : Outcome (List PairwiseResult) :=
  match ctx.err with
  | some k => .error (.ctxError k)
  | none =>
    if instances.length = 0 then .error .noInstances
    else
      let references := instances.map (fun inst => inst.Reference)
      let predictions := instances.map (fun inst => inst.Prediction)
      let results := instances.map (fun inst =>
        { Instance := inst, MetricResults := [] : PairwiseResult })
      runMetricLoop .metricFailed
        (fun m => m.Compute ctx references predictions) (fun m => m.Name)
        PairwiseResult.write e.metrics results

/-- PointwiseEvaluation.Run: the pointwise analogue of PairwiseEvaluation.Run. -/
def PointwiseEvaluation.Run (e : PointwiseEvaluation) (ctx : Context)
    (predictions : List String) : Outcome (List PointwiseResult) :=
  match ctx.err with
  | some k => .error (.ctxError k)
  | none =>
    if predictions.length = 0 then .error .noPredictions
    else
      let results := predictions.map (fun p =>
        { Prediction := p, MetricResults := [] : PointwiseResult })
      runMetricLoop .metricFailed
        (fun m => m.Compute ctx predictions) (fun m => m.Name)
        PointwiseResult.write e.metrics results

/-- Result from the combined-mode runner of evaluation.go: an instance plus
its merged metric results. -/
structure Result where
  Instance : Instance
  MetricResults : MetricResults
deriving DecidableEq, Repr

/-- The update performed by one score write on a combined-mode Result. -/
def Result.write (name : String) (r : Result) (score : ℚ) : Result :=
  { r with MetricResults := mapInsert r.MetricResults name score }

/-- Evaluation from evaluation.go: the combined runner holding pairwise and
pointwise metric lists. -/
structure Evaluation where
  Name : String
  Description : String
  pairwiseMetrics : List PairwiseMetric
  pointwiseMetrics : List PointwiseMetric

/-- NewEvaluation from evaluation.go. -/
def NewEvaluation (name description : String)
    (pairwiseMetrics : List PairwiseMetric)
    (pointwiseMetrics : List PointwiseMetric) : Evaluation :=
  { Name := name, Description := description,
    pairwiseMetrics := pairwiseMetrics, pointwiseMetrics := pointwiseMetrics }

/-- Evaluation.Run from evaluation.go: check the context, reject an empty
instance list and mismatched instance/prediction counts, extract references
from the instances, seed results, then run all pairwise metrics followed by
all pointwise metrics, each in registration order, with no score-count
check. -/
def Evaluation.Run (e : Evaluation) (ctx : Context)
    (instances : List Instance) (predictions : List String) :
    Outcome (List Result) :=
  match ctx.err with
  | some k => .error (.ctxError k)
  | none =>
    if instances.length = 0 then .error .noInstances
    else if instances.length ≠ predictions.length then
      .error (.instanceCountMismatch instances.length predictions.length)
    else
      let references := instances.map (fun inst => inst.Reference)
      let results := instances.map (fun inst =>
        { Instance := inst, MetricResults := [] : Result })
      match runMetricLoop .pairwiseMetricFailed
          (fun m => m.Compute ctx references predictions) (fun m => m.Name)
          Result.write e.pairwiseMetrics results with
      | .ok results2 =>
        runMetricLoop .pointwiseMetricFailed
          (fun m => m.Compute ctx predictions) (fun m => m.Name)
          Result.write e.pointwiseMetrics results2
      | o => o

namespace EvalV2

/-!
The eval.go file declares a second version of the combined runner. Its
metric structs expose the raw compute function directly as the public field
Compute (there is no validating wrapper in that file), and its Run performs
the score-count check that the other Run variants lack. Its declared Result
struct lists the fields EvaluationName, MetricResults and Error, but the Run
body constructs results carrying the fields Instance and MetricResults; the
embedding follows the constructing code.
-/

/-- PairwiseMetric as declared in eval.go: the compute function is the
public field Compute. -/
structure PairwiseMetric where
  Name : String
  Description : String
  Compute : PairwiseMetricFunc

/-- PointwiseMetric as declared in eval.go. -/
structure PointwiseMetric where
  Name : String
  Description : String
  Compute : PointwiseMetricFunc

/-- The per-result record constructed by the eval.go Run body. -/
structure Result where
  Instance : Instance
  MetricResults : MetricResults
deriving DecidableEq, Repr

/-- The update performed by one score write on an eval.go Result. -/
def Result.write (name : String) (r : Result) (score : ℚ) : Result :=
  { r with MetricResults := mapInsert r.MetricResults name score }

/-- Evaluation as declared in eval.go. -/
structure Evaluation where
  Name : String
  Description : String
  pairwiseMetrics : List PairwiseMetric
  pointwiseMetrics : List PointwiseMetric

/-- Evaluation.Run from eval.go: check the context, extract references, seed
results, then run all pairwise metrics and all pointwise metrics, failing
with a score-count error whenever a metric returns a number of scores
different from the batch size (the instance count for pairwise metrics, the
prediction count for pointwise ones). This variant performs no empty-batch
or count-mismatch validation. -/
def Evaluation.Run (e : Evaluation) (ctx : Context)
    (instances : List Instance) (predictions : List String) :
    Outcome (List Result) :=
  match ctx.err with
  | some k => .error (.ctxError k)
  | none =>
    let references := instances.map (fun inst => inst.Reference)
    let results := instances.map (fun inst =>
      { Instance := inst, MetricResults := [] : Result })
    match runMetricLoopChecked .pairwiseMetricFailed .pairwiseScoreCount
        instances.length
        (fun m => m.Compute ctx references predictions) (fun m => m.Name)
        Result.write e.pairwiseMetrics results with
    | .ok results2 =>
      runMetricLoopChecked .pointwiseMetricFailed .pointwiseScoreCount
        predictions.length
        (fun m => m.Compute ctx predictions) (fun m => m.Name)
        Result.write e.pointwiseMetrics results2
    | o => o

end EvalV2

namespace metrics

/-!
The built-in metrics of the metrics package. Text helpers are embedded at
the character level: strings.Contains is substring containment,
strings.ToLower maps Char.toLower over the characters, strings.Fields
splits on whitespace, and unicode.IsPunct is modelled over the ASCII range
(the punctuation characters of Unicode category P below code point 128,
listed by code point).
-/

/-- The ASCII characters of Unicode category P, by code point. -/
def punctChars : List Char :=
  [33, 34, 35, 37, 38, 39, 40, 41, 42, 44, 45, 46, 47,
   58, 59, 63, 64, 91, 92, 93, 95, 123, 125].map Char.ofNat

/-- unicode.IsPunct, modelled over the ASCII range. -/
def isPunct (c : Char) : Bool := punctChars.contains c

/-- strings.ToLower, modelled character-wise. -/
def goToLower (s : String) : String := String.mk (s.toList.map Char.toLower)

/-- Substring test on character lists: the needle occurs contiguously in
the haystack (an empty needle always occurs). -/
def containsSub (needle : List Char) : List Char → Bool
  | [] => needle.isEmpty
  | c :: rest => needle.isPrefixOf (c :: rest) || containsSub needle rest

/-- strings.Contains(s, sub). -/
def goContains (s sub : String) : Bool := containsSub sub.toList s.toList

/-- The accumulator-passing worker for fields: collect the current word in
reverse, emitting it at each whitespace boundary. -/
def fieldsAux : List Char → List Char → List String
  | acc, [] => if acc.isEmpty then [] else [String.mk acc.reverse]
  | acc, c :: cs =>
    if c.isWhitespace then
      if acc.isEmpty then fieldsAux [] cs
      else String.mk acc.reverse :: fieldsAux [] cs
    else fieldsAux (c :: acc) cs

/-- strings.Fields: the whitespace-separated words of a character list,
with no empty words. -/
def fields (s : List Char) : List String := fieldsAux [] s

/-- splitIntoWords from the metrics package: lowercase the text, replace
every punctuation character with a space, split on whitespace, and drop
empty strings. -/
def splitIntoWords (text : String) : List String :=
  let lowered := text.toList.map Char.toLower
  let replaced := lowered.map (fun c => if isPunct c then ' ' else c)
  let words := fields replaced
  words.filter (fun word => word ≠ "")

/-- The per-batch loop of the StringSimilarity metric: equal strings score
1, one containing the other scores 0.5, anything else 0; the loop runs over
the references and indexes the predictions, panicking when the predictions
run out early. -/
def stringSimilarityScores : List String → List String → Outcome (List ℚ)
  | [], _ => .ok []
  | _ :: _, [] => .panic
  | r :: rs, p :: ps =>
    match stringSimilarityScores rs ps with
    | .ok rest =>
      .ok ((if r = p then (1 : ℚ)
            else if goContains r p || goContains p r then 1/2
            else 0) :: rest)
    | o => o

/-- StringSimilarity from the metrics package. -/
def StringSimilarity : PairwiseMetric :=
  NewPairwiseMetric
    "string_similarity"
    "Computes similarity between two strings"
    (fun _ references predictions => stringSimilarityScores references predictions)

/-- The per-pair score of the WordOverlap metric: Jaccard similarity of the
word sets of the two strings, with both-empty scoring 1 and exactly one
empty scoring 0; the intersection is counted over the reference word set
and the union is card + card - intersection, as in the source. -/
def wordOverlapScore (r p : String) : ℚ :=
  let refWords := splitIntoWords r
  let predWords := splitIntoWords p
  if refWords.length = 0 ∧ predWords.length = 0 then 1
  else if refWords.length = 0 ∨ predWords.length = 0 then 0
  else
    let refMap := refWords.toFinset
    let predMap := predWords.toFinset
    let intersection := (refMap.filter (fun word => word ∈ predMap)).card
    let union := refMap.card + predMap.card - intersection
    (intersection : ℚ) / (union : ℚ)

/-- The per-batch loop of the WordOverlap metric. -/
def wordOverlapScores : List String → List String → Outcome (List ℚ)
  | [], _ => .ok []
  | _ :: _, [] => .panic
  | r :: rs, p :: ps =>
    match wordOverlapScores rs ps with
    | .ok rest => .ok (wordOverlapScore r p :: rest)
    | o => o

/-- WordOverlap from the metrics package. -/
def WordOverlap : PairwiseMetric :=
  NewPairwiseMetric
    "word_overlap"
    "Computes Jaccard similarity between words in two strings"
    (fun _ references predictions => wordOverlapScores references predictions)

/-- The fixed keyword list of the KeywordPresence metric. -/
def keywords : List String := ["important", "critical", "significant"]

/-- The per-prediction score of the KeywordPresence metric: the fraction of
keywords the lowercased prediction contains. -/
def keywordPresenceScore (prediction : String) : ℚ :=
  let count := (keywords.filter (fun keyword =>
    goContains (goToLower prediction) (goToLower keyword))).length
  (count : ℚ) / (keywords.length : ℚ)

/-- KeywordPresence from the metrics package: zero scores when the keyword
list is empty, otherwise one fraction per prediction. -/
def KeywordPresence : PointwiseMetric :=
  NewPointwiseMetric
    "keyword_presence"
    "Checks if text contains specific keywords"
    (fun _ predictions =>
      if keywords.length = 0 then .ok (predictions.map (fun _ => (0 : ℚ)))
      else .ok (predictions.map keywordPresenceScore))

end metrics

/-!
Concrete fixtures: small metrics and inputs used to instantiate the
universally quantified theorems below at specific points.
-/

/-- A pairwise metric that always returns an empty score slice. -/
def shortMetric : PairwiseMetric :=
  NewPairwiseMetric "short" "returns no scores" (fun _ _ _ => .ok [])

/-- A pairwise metric that always returns two scores. -/
def longMetric : PairwiseMetric :=
  NewPairwiseMetric "long" "returns two scores" (fun _ _ _ => .ok [0, 0])

/-- A well-behaved pairwise metric scoring every pair 1. -/
def oneMetric : PairwiseMetric :=
  NewPairwiseMetric "one" "scores every pair 1"
    (fun _ references _ => .ok (references.map (fun _ => (1 : ℚ))))

/-- A well-behaved pairwise metric scoring every pair 2. -/
def twoMetric : PairwiseMetric :=
  NewPairwiseMetric "two" "scores every pair 2"
    (fun _ references _ => .ok (references.map (fun _ => (2 : ℚ))))

/-- A pairwise metric named like twoMetric but scoring every pair 9,
for exercising name collisions. -/
def nineMetric : PointwiseMetric :=
  NewPointwiseMetric "two" "scores every prediction 9"
    (fun _ predictions => .ok (predictions.map (fun _ => (9 : ℚ))))

/-- A pairwise metric that always fails. -/
def failMetric : PairwiseMetric :=
  NewPairwiseMetric "bad" "always fails" (fun _ _ _ => .error (.custom "boom"))

/-- A well-behaved pointwise metric scoring each prediction by its length. -/
def lenMetric : PointwiseMetric :=
  NewPointwiseMetric "len" "string length"
    (fun _ predictions => .ok (predictions.map (fun p => (p.length : ℚ))))

/-- A pointwise metric that always fails. -/
def failPointwiseMetric : PointwiseMetric :=
  NewPointwiseMetric "badpt" "always fails" (fun _ _ => .error (.custom "pow"))

/-- A sample instance. -/
def sampleInstance : Instance := ⟨"r", "p"⟩

/-! Basic lemmas about the map model. -/

/-- Looking up the key just inserted yields the inserted value. -/
theorem mapGet_mapInsert_self (m : MetricResults) (k : String) (v : ℚ) :
    mapGet (mapInsert m k v) k = some v := by
  induction m with
  | nil => simp [mapInsert, mapGet]
  | cons p rest ih =>
    by_cases h : p.1 = k <;> simp [mapInsert, mapGet, h, ih]

/-- Inserting one key does not change the lookup of another. -/
theorem mapGet_mapInsert_ne (m : MetricResults) (k : String) (v : ℚ)
    (k2 : String) (h : k2 ≠ k) :
    mapGet (mapInsert m k v) k2 = mapGet m k2 := by
  have h1 : ¬ k = k2 := fun he => h he.symm
  induction m with
  | nil => simp [mapInsert, mapGet, h1]
  | cons p rest ih =>
    by_cases hp : p.1 = k
    · have h2 : ¬ p.1 = k2 := by rw [hp]; exact h1
      simp [mapInsert, mapGet, hp, h1, h2]
    · by_cases hk2 : p.1 = k2 <;> simp [mapInsert, mapGet, hp, hk2, h, ih]

/-- Inserting a fresh key appends it to the key sequence. -/
theorem keys_mapInsert_of_not_mem (m : MetricResults) (k : String) (v : ℚ)
    (h : k ∉ m.map Prod.fst) :
    (mapInsert m k v).map Prod.fst = m.map Prod.fst ++ [k] := by
  induction m with
  | nil => simp [mapInsert]
  | cons p rest ih =>
    simp only [List.map_cons, List.mem_cons] at h
    push_neg at h
    have hne : ¬ p.1 = k := fun he => h.1 he.symm
    simp [mapInsert, hne, ih h.2]

/-- A key absent from a pair list filters to nothing. -/
theorem filter_key_eq_nil (l : List (String × ℚ)) (k : String)
    (h : k ∉ l.map Prod.fst) :
    l.filter (fun p => p.1 = k) = [] := by
  induction l with
  | nil => rfl
  | cons p rest ih =>
    simp only [List.map_cons, List.mem_cons] at h
    push_neg at h
    have hne : ¬ p.1 = k := fun he => h.1 he.symm
    simp [List.filter_cons, hne, ih h.2]

/-- With pairwise-distinct keys, a present pair is the whole filtrate of
its key. -/
theorem filter_key_eq_single (l : List (String × ℚ)) (k : String) (v : ℚ)
    (hnd : (l.map Prod.fst).Nodup) (hmem : (k, v) ∈ l) :
    l.filter (fun p => p.1 = k) = [(k, v)] := by
  induction l with
  | nil => cases hmem
  | cons p rest ih =>
    simp only [List.map_cons, List.nodup_cons] at hnd
    rcases List.mem_cons.mp hmem with h | h
    · subst h
      have : rest.filter (fun p => p.1 = k) = [] :=
        filter_key_eq_nil rest k hnd.1
      simp [List.filter_cons, this]
    · have hk : k ∈ rest.map Prod.fst :=
        List.mem_map.mpr ⟨(k, v), h, rfl⟩
      have hne : p.1 ≠ k := fun he => hnd.1 (he ▸ hk)
      simp [List.filter_cons, hne, ih hnd.2 h]

/-- Last-writer-wins: looking up a key after a left fold of insertions
yields the value of the last write with that key, or the lookup in the
initial map when the key was never written. -/
theorem mapGet_foldl_insert (l : List (String × ℚ)) :
    ∀ (acc : MetricResults) (k : String),
    mapGet (l.foldl (fun a p => mapInsert a p.1 p.2) acc) k =
      ((l.filter (fun p => p.1 = k)).getLast?).elim (mapGet acc k)
        (fun q => some q.2) := by
  induction l with
  | nil => intro acc k; rfl
  | cons p rest ih =>
    intro acc k
    rw [List.foldl_cons, ih]
    by_cases hp : p.1 = k
    · rcases hrest : rest.filter (fun q => q.1 = k) with _ | ⟨x, xs⟩
      · have hins : mapGet (mapInsert acc k p.2) k = some p.2 :=
          mapGet_mapInsert_self acc k p.2
        simp [List.filter_cons, hp, hrest, hins]
      · rw [List.filter_cons_of_pos (by simp [hp]), hrest,
          List.getLast?_cons_cons,
          List.getLast?_eq_getLast_of_ne_nil (List.cons_ne_nil x xs)]
        rfl
    · have hins : mapGet (mapInsert acc p.1 p.2) k = mapGet acc k :=
        mapGet_mapInsert_ne acc p.1 p.2 k (fun he => hp he.symm)
      simp [List.filter_cons, hp, hins]

/-- Folding insertions with pairwise-distinct keys, none of which occur in
the initial map, appends the written keys to the key sequence in write
order. -/
theorem keys_foldl_insert (l : List (String × ℚ)) :
    ∀ (acc : MetricResults), (l.map Prod.fst).Nodup →
    (∀ k ∈ l.map Prod.fst, k ∉ acc.map Prod.fst) →
    ((l.foldl (fun a p => mapInsert a p.1 p.2) acc).map Prod.fst) =
      acc.map Prod.fst ++ l.map Prod.fst := by
  induction l with
  | nil => intro acc _ _; simp
  | cons p rest ih =>
    intro acc hnd hfresh
    simp only [List.map_cons, List.nodup_cons] at hnd
    have hp : p.1 ∉ acc.map Prod.fst := hfresh p.1 (by simp)
    rw [List.foldl_cons,
      ih (mapInsert acc p.1 p.2) hnd.2 (fun k hk => ?_),
      keys_mapInsert_of_not_mem acc p.1 p.2 hp]
    · simp
    · rw [keys_mapInsert_of_not_mem acc p.1 p.2 hp]
      intro hmem
      rcases List.mem_append.mp hmem with h | h
      · exact hfresh k (by simp [hk]) h
      · have hkp : k = p.1 := by simpa using h
        exact hnd.1 (hkp ▸ hk)

/-- With pairwise-distinct keys, looking up a written key after the fold
yields exactly its written value. -/
theorem mapGet_foldl_insert_nodup (l : List (String × ℚ))
    (acc : MetricResults) (k : String) (v : ℚ)
    (hnd : (l.map Prod.fst).Nodup) (hmem : (k, v) ∈ l) :
    mapGet (l.foldl (fun a p => mapInsert a p.1 p.2) acc) k = some v := by
  rw [mapGet_foldl_insert, filter_key_eq_single l k v hnd hmem]
  rfl

/-! Lemmas about the score-writing loop and the per-metric loop. -/

/-- Closed form of the score-writing loop when the scores do not outnumber
the results: each written result is updated with its score, the rest are
untouched. -/
theorem writeScores_eq {α : Type} (update : α → ℚ → α) :
    ∀ (scores : List ℚ) (results : List α),
    scores.length ≤ results.length →
    writeScores update scores results =
      .ok (List.zipWith update results scores ++ results.drop scores.length) := by
  intro scores
  induction scores with
  | nil => intro results _; simp [writeScores]
  | cons s rest ih =>
    intro results hlen
    cases results with
    | nil => simp at hlen
    | cons r rs =>
      simp only [List.length_cons, Nat.add_le_add_iff_right] at hlen
      simp [writeScores, ih rs hlen]

/-- The score-writing loop panics exactly when the scores outnumber the
results. -/
theorem writeScores_panic {α : Type} (update : α → ℚ → α) :
    ∀ (scores : List ℚ) (results : List α),
    results.length < scores.length →
    writeScores update scores results = .panic := by
  intro scores
  induction scores with
  | nil => intro results h; simp at h
  | cons s rest ih =>
    intro results hlen
    cases results with
    | nil => rfl
    | cons r rs =>
      simp only [List.length_cons, Nat.add_lt_add_iff_right] at hlen
      simp [writeScores, ih rs hlen]

/-- Success of the write loop preserves the result count. -/
theorem writeScores_length {α : Type} (update : α → ℚ → α)
    (scores : List ℚ) (results : List α)
    (h : scores.length ≤ results.length) :
    ∃ out, writeScores update scores results = .ok out ∧
      out.length = results.length := by
  refine ⟨_, writeScores_eq update scores results h, ?_⟩
  simp [List.length_zipWith]
  omega

/-- Trace of the per-metric loop when every metric succeeds with a full
score vector: the loop succeeds, preserves the result count, and each
result accumulates the updates of all metrics in registration order. -/
theorem runMetricLoop_trace {μ α : Type} (wrap : String → EvalError → EvalError)
    (computeOf : μ → Outcome (List ℚ)) (nameOf : μ → String)
    (update : String → α → ℚ → α) (d : α) :
    ∀ (ms : List μ) (results : List α),
    (∀ m ∈ ms, ∃ s, computeOf m = .ok s ∧ s.length = results.length) →
    ∃ out, runMetricLoop wrap computeOf nameOf update ms results = .ok out ∧
      out.length = results.length ∧
      ∀ j, j < results.length →
        out.getD j d = ms.foldl
          (fun r m => update (nameOf m) r ((computeOf m).scores.getD j 0))
          (results.getD j d) := by
  intro ms
  induction ms with
  | nil =>
    intro results _
    exact ⟨results, rfl, rfl, fun j _ => rfl⟩
  | cons m rest ih =>
    intro results hok
    obtain ⟨s, hs, hlen⟩ := hok m (by simp)
    have hwrite := writeScores_eq (update (nameOf m)) s results (le_of_eq hlen)
    rw [hlen, List.drop_length, List.append_nil] at hwrite
    have hmidlen : (List.zipWith (update (nameOf m)) results s).length = results.length := by
      simp [List.length_zipWith, hlen]
    obtain ⟨out, hrun, houtlen, hget⟩ :=
      ih (List.zipWith (update (nameOf m)) results s)
        (by
          intro m2 hm2
          obtain ⟨s2, hs2, hlen2⟩ := hok m2 (by simp [hm2])
          exact ⟨s2, hs2, by rw [hlen2, hmidlen]⟩)
    refine ⟨out, ?_, by rw [houtlen, hmidlen], ?_⟩
    · simp [runMetricLoop, hs, hwrite, hrun]
    · intro j hj
      have hj2 : j < s.length := by rw [hlen]; exact hj
      have hjz : j < (List.zipWith (update (nameOf m)) results s).length := by
        rw [hmidlen]; exact hj
      have hstep : (List.zipWith (update (nameOf m)) results s).getD j d =
          update (nameOf m) (results.getD j d) ((computeOf m).scores.getD j 0) := by
        rw [hs]
        show _ = update (nameOf m) (results.getD j d) (s.getD j 0)
        rw [List.getD_eq_getElem _ d hjz, List.getD_eq_getElem _ d hj,
          List.getD_eq_getElem _ 0 hj2, List.getElem_zipWith]
      rw [hget j hjz, List.foldl_cons, hstep]

/-- Running the loop on a concatenation whose first block fully succeeds
reduces to running it on the second block from the written results. -/
theorem runMetricLoop_append {μ α : Type} (wrap : String → EvalError → EvalError)
    (computeOf : μ → Outcome (List ℚ)) (nameOf : μ → String)
    (update : String → α → ℚ → α) :
    ∀ (pre rest : List μ) (results : List α),
    (∀ m ∈ pre, ∃ s, computeOf m = .ok s ∧ s.length = results.length) →
    ∃ mid, mid.length = results.length ∧
      runMetricLoop wrap computeOf nameOf update (pre ++ rest) results =
        runMetricLoop wrap computeOf nameOf update rest mid := by
  intro pre
  induction pre with
  | nil => intro rest results _; exact ⟨results, rfl, rfl⟩
  | cons m pres ih =>
    intro rest results hok
    obtain ⟨s, hs, hlen⟩ := hok m (by simp)
    obtain ⟨mid0, hmid0⟩ :=
      writeScores_length (update (nameOf m)) s results (le_of_eq hlen)
    obtain ⟨mid, hmidlen, hrun⟩ := ih rest mid0
      (by
        intro m2 hm2
        obtain ⟨s2, hs2, hlen2⟩ := hok m2 (by simp [hm2])
        exact ⟨s2, hs2, by rw [hlen2, hmid0.2]⟩)
    refine ⟨mid, by rw [hmidlen, hmid0.2], ?_⟩
    simp [runMetricLoop, hs, hmid0.1, hrun]

/-- A failing metric at the head of the loop yields the wrapped failure. -/
theorem runMetricLoop_error {μ α : Type} (wrap : String → EvalError → EvalError)
    (computeOf : μ → Outcome (List ℚ)) (nameOf : μ → String)
    (update : String → α → ℚ → α) (m : μ) (rest : List μ)
    (results : List α) (e : EvalError) (h : computeOf m = .error e) :
    runMetricLoop wrap computeOf nameOf update (m :: rest) results =
      .error (wrap (nameOf m) e) := by
  simp [runMetricLoop, h]

/-- Checked-loop analogue of runMetricLoop_append: the first block fully
succeeds with the expected score counts. -/
theorem runMetricLoopChecked_append {μ α : Type}
    (wrap : String → EvalError → EvalError)
    (wrapCount : String → Nat → Nat → EvalError) (expected : Nat)
    (computeOf : μ → Outcome (List ℚ)) (nameOf : μ → String)
    (update : String → α → ℚ → α) :
    ∀ (pre rest : List μ) (results : List α),
    (∀ m ∈ pre, ∃ s, computeOf m = .ok s ∧ s.length = results.length ∧
      s.length = expected) →
    ∃ mid, mid.length = results.length ∧
      runMetricLoopChecked wrap wrapCount expected computeOf nameOf update
        (pre ++ rest) results =
      runMetricLoopChecked wrap wrapCount expected computeOf nameOf update
        rest mid := by
  intro pre
  induction pre with
  | nil => intro rest results _; exact ⟨results, rfl, rfl⟩
  | cons m pres ih =>
    intro rest results hok
    obtain ⟨s, hs, hlen, hexp⟩ := hok m (by simp)
    obtain ⟨mid0, hmid0⟩ :=
      writeScores_length (update (nameOf m)) s results (le_of_eq hlen)
    obtain ⟨mid, hmidlen, hrun⟩ := ih rest mid0
      (by
        intro m2 hm2
        obtain ⟨s2, hs2, hlen2, hexp2⟩ := hok m2 (by simp [hm2])
        exact ⟨s2, hs2, by rw [hlen2, hmid0.2], hexp2⟩)
    refine ⟨mid, by rw [hmidlen, hmid0.2], ?_⟩
    simp [runMetricLoopChecked, hs, hexp, hmid0.1, hrun]

/-- In the checked loop, a metric whose score count differs from the
expected batch size yields the score-count failure. -/
theorem runMetricLoopChecked_count_error {μ α : Type}
    (wrap : String → EvalError → EvalError)
    (wrapCount : String → Nat → Nat → EvalError) (expected : Nat)
    (computeOf : μ → Outcome (List ℚ)) (nameOf : μ → String)
    (update : String → α → ℚ → α) (m : μ) (rest : List μ)
    (results : List α) (s : List ℚ)
    (hs : computeOf m = .ok s) (hne : s.length ≠ expected) :
    runMetricLoopChecked wrap wrapCount expected computeOf nameOf update
      (m :: rest) results = .error (wrapCount (nameOf m) s.length expected) := by
  simp [runMetricLoopChecked, hs, hne]

/-- A fold of pairwise-result writes only touches the score map: the
instance survives and the map accumulates the insertions. -/
theorem foldl_write_pairwiseResult {μ : Type} (nameOf : μ → String) (g : μ → ℚ) :
    ∀ (ms : List μ) (r : PairwiseResult),
    ms.foldl (fun r m => PairwiseResult.write (nameOf m) r (g m)) r =
      ⟨r.Instance, ms.foldl (fun acc m => mapInsert acc (nameOf m) (g m)) r.MetricResults⟩ := by
  intro ms
  induction ms with
  | nil => intro r; rfl
  | cons m rest ih => intro r; rw [List.foldl_cons, ih, List.foldl_cons]; rfl

/-- The combined-runner analogue of foldl_write_pairwiseResult. -/
theorem foldl_write_result {μ : Type} (nameOf : μ → String) (g : μ → ℚ) :
    ∀ (ms : List μ) (r : Result),
    ms.foldl (fun r m => Result.write (nameOf m) r (g m)) r =
      ⟨r.Instance, ms.foldl (fun acc m => mapInsert acc (nameOf m) (g m)) r.MetricResults⟩ := by
  intro ms
  induction ms with
  | nil => intro r; rfl
  | cons m rest ih => intro r; rw [List.foldl_cons, ih, List.foldl_cons]; rfl

/-- A fold of named insertions is the pair-list fold of (name, value)
pairs, letting the pair-list lemmas above apply. -/
theorem foldl_mapInsert_pairs {μ : Type} (nameOf : μ → String) (g : μ → ℚ)
    (ms : List μ) (acc : MetricResults) :
    ms.foldl (fun acc m => mapInsert acc (nameOf m) (g m)) acc =
      (ms.map (fun m => (nameOf m, g m))).foldl (fun a p => mapInsert a p.1 p.2) acc := by
  induction ms generalizing acc with
  | nil => rfl
  | cons m rest ih => simp [List.foldl_cons, ih]

/-- With full-length score vectors the adapter loop is an index-wise zip of
the score function (reference score first). -/
theorem combineScores_eq_zipWith (f : PairwiseScoreFunc) :
    ∀ (n : Nat) (rs ps : List ℚ), rs.length = n → ps.length = n →
    combineScores f n rs ps = .ok (List.zipWith f rs ps) := by
  intro n
  induction n with
  | zero =>
    intro rs ps h1 h2
    rw [List.length_eq_zero] at h1 h2
    subst h1; subst h2; rfl
  | succ n ih =>
    intro rs ps h1 h2
    cases rs with
    | nil => simp at h1
    | cons r rs2 =>
      cases ps with
      | nil => simp at h2
      | cons p ps2 =>
        simp only [List.length_cons, Nat.add_right_cancel_iff] at h1 h2
        simp [combineScores, ih rs2 ps2 h1 h2]

/-!
The claims.
-/

/-- C7: the built-in ratio score function is total: it returns 0 when the
reference score is 0, for any prediction score, and the quotient
otherwise. -/
theorem C7_ratio_score_total (r p : ℚ) :
    (r = 0 → RatioScore r p = 0) ∧ (r ≠ 0 → RatioScore r p = p / r) := by
  constructor <;> intro h <;> simp [RatioScore, h]

/-- Witness for C7 at r = 0, p = 5 and r = 2, p = 6. -/
theorem C7_witness : RatioScore 0 5 = 0 ∧ RatioScore 2 6 = 6 / 2 :=
  ⟨(C7_ratio_score_total 0 5).1 rfl,
   (C7_ratio_score_total 2 6).2 (by norm_num)⟩

/-- C9: a registered metric returning strictly more scores than there are
batch items drives the score-writing loop out of range: both
PairwiseEvaluation.Run and the combined Evaluation.Run panic instead of
returning an error when a metric returns two scores for a one-instance
batch. -/
theorem C9_over_length_scores_panic :
    PairwiseEvaluation.Run ⟨"E", "", [longMetric]⟩ ⟨none⟩ [sampleInstance] = .panic ∧
    Evaluation.Run ⟨"E", "", [longMetric], []⟩ ⟨none⟩ [sampleInstance] ["p"] = .panic := by
  constructor <;> rfl

/-- C1 counterexample: a pairwise metric returning zero scores for a
one-instance batch does not make PairwiseEvaluation.Run fail; the Run
succeeds and the lone result simply lacks the metric entry (silent
truncation), refuting the claim that every runner variant fails with a
contract-violation error on a score-count mismatch. -/
theorem C1_counterexample :
    PairwiseEvaluation.Run ⟨"E", "", [shortMetric]⟩ ⟨none⟩ [sampleInstance] =
      .ok [⟨sampleInstance, []⟩] := by
  rfl

/-- C6 (amended for C4 as well): every Run variant and both metric-wrapper
Compute methods check the context first; with an already-done context each
returns the context error, whatever metrics are registered and whatever
the inputs are (so no registered compute function can influence, or be
invoked during, the call). -/
theorem C6_cancelled_context_fails_immediately (k : CtxErrKind) (ctx : Context)
    (h : ctx.err = some k) (pe : PairwiseEvaluation) (pte : PointwiseEvaluation)
    (ce : Evaluation) (ve : EvalV2.Evaluation) (instances : List Instance)
    (predictions references : List String)
    (pm : PairwiseMetric) (ptm : PointwiseMetric) :
    pe.Run ctx instances = .error (.ctxError k) ∧
    pte.Run ctx predictions = .error (.ctxError k) ∧
    ce.Run ctx instances predictions = .error (.ctxError k) ∧
    ve.Run ctx instances predictions = .error (.ctxError k) ∧
    pm.Compute ctx references predictions = .error (.ctxError k) ∧
    ptm.Compute ctx predictions = .error (.ctxError k) := by
  refine ⟨?_, ?_, ?_, ?_, ?_, ?_⟩ <;>
    simp [PairwiseEvaluation.Run, PointwiseEvaluation.Run, Evaluation.Run,
      EvalV2.Evaluation.Run, PairwiseMetric.Compute, PointwiseMetric.Compute, h]

/-- Witness for C6: a cancelled context at concrete inputs, with concrete
well-behaved metrics registered. -/
theorem C6_witness :
    PairwiseEvaluation.Run ⟨"E", "", [oneMetric]⟩ ⟨some .canceled⟩ [sampleInstance] =
      .error (.ctxError .canceled) ∧
    PointwiseEvaluation.Run ⟨"E", "", [lenMetric]⟩ ⟨some .canceled⟩ ["p"] =
      .error (.ctxError .canceled) ∧
    Evaluation.Run ⟨"E", "", [oneMetric], [lenMetric]⟩ ⟨some .canceled⟩
      [sampleInstance] ["p"] = .error (.ctxError .canceled) ∧
    EvalV2.Evaluation.Run ⟨"E", "", [], []⟩ ⟨some .canceled⟩ [sampleInstance] ["p"] =
      .error (.ctxError .canceled) ∧
    oneMetric.Compute ⟨some .canceled⟩ ["r"] ["p"] = .error (.ctxError .canceled) ∧
    lenMetric.Compute ⟨some .canceled⟩ ["p"] = .error (.ctxError .canceled) :=
  C6_cancelled_context_fails_immediately .canceled ⟨some .canceled⟩ rfl
    ⟨"E", "", [oneMetric]⟩ ⟨"E", "", [lenMetric]⟩ ⟨"E", "", [oneMetric], [lenMetric]⟩
    ⟨"E", "", [], []⟩ [sampleInstance] ["p"] ["r"] oneMetric lenMetric

/-- C4: with a live context, the pairwise wrapper Compute fails on empty
references, fails with both observed counts on a reference/prediction
count mismatch, and otherwise invokes the wrapped function (the call
reduces to it); the pointwise wrapper Compute fails on empty predictions
and otherwise invokes the wrapped function. -/
theorem C4_wrapper_validation (m : PairwiseMetric) (m2 : PointwiseMetric)
    (ctx : Context) (references predictions : List String)
    (h : ctx.err = none) :
    (references.length = 0 →
      m.Compute ctx references predictions = .error .noReferences) ∧
    (references.length ≠ 0 → references.length ≠ predictions.length →
      m.Compute ctx references predictions =
        .error (.refCountMismatch references.length predictions.length)) ∧
    (references.length ≠ 0 → references.length = predictions.length →
      m.Compute ctx references predictions = m.compute ctx references predictions) ∧
    (predictions.length = 0 → m2.Compute ctx predictions = .error .noPredictions) ∧
    (predictions.length ≠ 0 → m2.Compute ctx predictions = m2.compute ctx predictions) := by
  refine ⟨fun h0 => ?_, fun h0 h1 => ?_, fun h0 h1 => ?_, fun h0 => ?_, fun h0 => ?_⟩
  · simp [PairwiseMetric.Compute, h, h0]
  · simp [PairwiseMetric.Compute, h, h0, h1]
  · have hcond : ¬ references.length ≠ predictions.length := fun hc => hc h1
    simp [PairwiseMetric.Compute, h, h0, hcond]
  · simp [PointwiseMetric.Compute, h, h0]
  · simp [PointwiseMetric.Compute, h, h0]

/-- Witness for C4: each validation branch at concrete inputs. -/
theorem C4_witness :
    oneMetric.Compute ⟨none⟩ [] ["p"] = .error .noReferences ∧
    oneMetric.Compute ⟨none⟩ ["r"] [] = .error (.refCountMismatch 1 0) ∧
    oneMetric.Compute ⟨none⟩ ["r"] ["p"] = .ok [1] ∧
    lenMetric.Compute ⟨none⟩ [] = .error .noPredictions ∧
    lenMetric.Compute ⟨none⟩ ["p"] = .ok [1] := by
  have h := C4_wrapper_validation oneMetric lenMetric ⟨none⟩ ["r"] ["p"] rfl
  have h0 := C4_wrapper_validation oneMetric lenMetric ⟨none⟩ [] [] rfl
  have h1 := C4_wrapper_validation oneMetric lenMetric ⟨none⟩ ["r"] [] rfl
  refine ⟨?_, ?_, ?_, ?_, ?_⟩
  · exact (C4_wrapper_validation oneMetric lenMetric ⟨none⟩ [] ["p"] rfl).1 rfl
  · exact h1.2.1 (by decide) (by decide)
  · exact (h.2.2.1 (by decide) rfl).trans rfl
  · exact h0.2.2.2.1 rfl
  · exact (h.2.2.2.2 (by decide)).trans rfl

/-- C2: when a metric fails, the whole Run fails with a wrapped error
naming that metric and carrying the underlying cause, and no results are
returned (the error outcome carries none, matching the nil slice the Go
code returns): proved for PairwiseEvaluation.Run at the first failing
metric, and for the combined Evaluation.Run both for a failing pairwise
metric and for a failing pointwise metric after all pairwise metrics
succeeded, with every earlier metric well-behaved. -/
theorem C2_metric_failure_aborts_run (ctx : Context) (h : ctx.err = none) :
    (∀ (e : PairwiseEvaluation) (instances : List Instance)
       (pre post : List PairwiseMetric) (m : PairwiseMetric) (err : EvalError),
      instances.length ≠ 0 →
      e.metrics = pre ++ m :: post →
      (∀ m2 ∈ pre, ∃ s, m2.Compute ctx (instances.map (fun i => i.Reference))
        (instances.map (fun i => i.Prediction)) = .ok s ∧
        s.length = instances.length) →
      m.Compute ctx (instances.map (fun i => i.Reference))
        (instances.map (fun i => i.Prediction)) = .error err →
      e.Run ctx instances = .error (.metricFailed m.Name err)) ∧
    (∀ (e : Evaluation) (instances : List Instance) (predictions : List String)
       (pre post : List PairwiseMetric) (m : PairwiseMetric) (err : EvalError),
      instances.length ≠ 0 → instances.length = predictions.length →
      e.pairwiseMetrics = pre ++ m :: post →
      (∀ m2 ∈ pre, ∃ s, m2.Compute ctx (instances.map (fun i => i.Reference))
        predictions = .ok s ∧ s.length = instances.length) →
      m.Compute ctx (instances.map (fun i => i.Reference)) predictions = .error err →
      e.Run ctx instances predictions = .error (.pairwiseMetricFailed m.Name err)) ∧
    (∀ (e : Evaluation) (instances : List Instance) (predictions : List String)
       (pre post : List PointwiseMetric) (m : PointwiseMetric) (err : EvalError),
      instances.length ≠ 0 → instances.length = predictions.length →
      (∀ m2 ∈ e.pairwiseMetrics, ∃ s,
        m2.Compute ctx (instances.map (fun i => i.Reference)) predictions = .ok s ∧
        s.length = instances.length) →
      e.pointwiseMetrics = pre ++ m :: post →
      (∀ m2 ∈ pre, ∃ s, m2.Compute ctx predictions = .ok s ∧
        s.length = instances.length) →
      m.Compute ctx predictions = .error err →
      e.Run ctx instances predictions = .error (.pointwiseMetricFailed m.Name err)) := by
  refine ⟨?_, ?_, ?_⟩
  · intro e instances pre post m err hne hsplit hpre hm
    obtain ⟨mid, hmidlen, hrun⟩ := runMetricLoop_append .metricFailed
      (fun m2 => m2.Compute ctx (instances.map (fun i => i.Reference))
        (instances.map (fun i => i.Prediction)))
      (fun m2 => m2.Name) PairwiseResult.write pre (m :: post)
      (instances.map (fun inst => { Instance := inst, MetricResults := [] }))
      (by
        intro m2 hm2
        obtain ⟨s, hs, hl⟩ := hpre m2 hm2
        exact ⟨s, hs, by rw [hl]; simp⟩)
    calc e.Run ctx instances
        = runMetricLoop .metricFailed
            (fun m2 => m2.Compute ctx (instances.map (fun i => i.Reference))
              (instances.map (fun i => i.Prediction)))
            (fun m2 => m2.Name) PairwiseResult.write (pre ++ m :: post)
            (instances.map (fun inst => { Instance := inst, MetricResults := [] })) := by
          simp only [PairwiseEvaluation.Run, h, if_neg hne, hsplit]
      _ = runMetricLoop .metricFailed
            (fun m2 => m2.Compute ctx (instances.map (fun i => i.Reference))
              (instances.map (fun i => i.Prediction)))
            (fun m2 => m2.Name) PairwiseResult.write (m :: post) mid := hrun
      _ = .error (.metricFailed m.Name err) :=
          runMetricLoop_error _ _ _ _ m post mid err hm
  · intro e instances predictions pre post m err hne hlen hsplit hpre hm
    obtain ⟨mid, hmidlen, hrun⟩ := runMetricLoop_append .pairwiseMetricFailed
      (fun m2 => m2.Compute ctx (instances.map (fun i => i.Reference)) predictions)
      (fun m2 => m2.Name) Result.write pre (m :: post)
      (instances.map (fun inst => { Instance := inst, MetricResults := [] }))
      (by
        intro m2 hm2
        obtain ⟨s, hs, hl⟩ := hpre m2 hm2
        exact ⟨s, hs, by rw [hl]; simp⟩)
    have hloop : runMetricLoop .pairwiseMetricFailed
        (fun m2 => m2.Compute ctx (instances.map (fun i => i.Reference)) predictions)
        (fun m2 => m2.Name) Result.write (pre ++ m :: post)
        (instances.map (fun inst => { Instance := inst, MetricResults := [] })) =
        .error (.pairwiseMetricFailed m.Name err) := by
      rw [hrun]
      exact runMetricLoop_error _ _ _ _ m post mid err hm
    have hcond : ¬ instances.length ≠ predictions.length := fun hc => hc hlen
    simp only [Evaluation.Run, h, if_neg hne, if_neg hcond, hsplit, hloop]
  · intro e instances predictions pre post m err hne hlen hpw hsplit hpre hm
    obtain ⟨results2, hrun1, hlen2, _⟩ := runMetricLoop_trace .pairwiseMetricFailed
      (fun m2 => m2.Compute ctx (instances.map (fun i => i.Reference)) predictions)
      (fun m2 => m2.Name) Result.write ⟨sampleInstance, []⟩ e.pairwiseMetrics
      (instances.map (fun inst => { Instance := inst, MetricResults := [] }))
      (by
        intro m2 hm2
        obtain ⟨s, hs, hl⟩ := hpw m2 hm2
        exact ⟨s, hs, by rw [hl]; simp⟩)
    obtain ⟨mid, hmidlen, hrun2⟩ := runMetricLoop_append .pointwiseMetricFailed
      (fun m2 => m2.Compute ctx predictions)
      (fun m2 => m2.Name) Result.write pre (m :: post) results2
      (by
        intro m2 hm2
        obtain ⟨s, hs, hl⟩ := hpre m2 hm2
        refine ⟨s, hs, ?_⟩
        rw [hl, hlen2]; simp)
    have hloop2 : runMetricLoop .pointwiseMetricFailed
        (fun m2 => m2.Compute ctx predictions)
        (fun m2 => m2.Name) Result.write (pre ++ m :: post) results2 =
        .error (.pointwiseMetricFailed m.Name err) := by
      rw [hrun2]
      exact runMetricLoop_error _ _ _ _ m post mid err hm
    have hcond : ¬ instances.length ≠ predictions.length := fun hc => hc hlen
    simp only [Evaluation.Run, h, if_neg hne, if_neg hcond, hrun1, hsplit, hloop2]

/-- Witness for C2: a well-behaved metric followed by a failing one, for
the pairwise runner and for the combined runner. -/
theorem C2_witness :
    PairwiseEvaluation.Run ⟨"E", "", [oneMetric, failMetric]⟩ ⟨none⟩ [sampleInstance] =
      .error (.metricFailed "bad" (.custom "boom")) ∧
    Evaluation.Run ⟨"E", "", [oneMetric], [failPointwiseMetric]⟩ ⟨none⟩
      [sampleInstance] ["p"] = .error (.pointwiseMetricFailed "badpt" (.custom "pow")) := by
  have h := C2_metric_failure_aborts_run ⟨none⟩ rfl
  constructor
  · refine h.1 ⟨"E", "", [oneMetric, failMetric]⟩ [sampleInstance]
      [oneMetric] [] failMetric (.custom "boom") (by decide) rfl ?_ rfl
    intro m2 hm2
    have : m2 = oneMetric := by simpa using hm2
    subst this
    exact ⟨[1], rfl, rfl⟩
  · refine h.2.2 ⟨"E", "", [oneMetric], [failPointwiseMetric]⟩ [sampleInstance] ["p"]
      [] [] failPointwiseMetric (.custom "pow") (by decide) rfl ?_ rfl
      (by intro m2 hm2; simp at hm2) rfl
    intro m2 hm2
    have : m2 = oneMetric := by simpa using hm2
    subst this
    exact ⟨[1], rfl, rfl⟩

/-- C5: the adapter keeps the source name and description; with a live
context and valid input shapes, its Compute applies the score function
index-wise to the pointwise scores of the references and of the
predictions (so with DifferenceScore entry i is the prediction score minus
the reference score), and an error of either pointwise sub-call is
propagated unchanged with no partial scores. -/
theorem C5_to_pairwise_adapter (m : PointwiseMetric) (scoreFunc : PairwiseScoreFunc)
    (ctx : Context) (references predictions : List String)
    (h : ctx.err = none) (hne : references.length ≠ 0)
    (hlen : references.length = predictions.length) :
    (m.ToPairwise scoreFunc).Name = m.Name ∧
    (m.ToPairwise scoreFunc).Description = m.Description ∧
    (∀ rs ps, m.compute ctx references = .ok rs → rs.length = references.length →
      m.compute ctx predictions = .ok ps → ps.length = predictions.length →
      (m.ToPairwise scoreFunc).Compute ctx references predictions =
        .ok (List.zipWith scoreFunc rs ps)) ∧
    (∀ rs ps, m.compute ctx references = .ok rs → rs.length = references.length →
      m.compute ctx predictions = .ok ps → ps.length = predictions.length →
      ∀ j, j < references.length →
        ((m.ToPairwise DifferenceScore).Compute ctx references predictions).scores.getD j 0 =
          ps.getD j 0 - rs.getD j 0) ∧
    (∀ err, m.compute ctx references = .error err →
      (m.ToPairwise scoreFunc).Compute ctx references predictions = .error err) ∧
    (∀ rs err, m.compute ctx references = .ok rs →
      m.compute ctx predictions = .error err →
      (m.ToPairwise scoreFunc).Compute ctx references predictions = .error err) := by
  have hpne : predictions.length ≠ 0 := by rw [← hlen]; exact hne
  have hcond : ¬ references.length ≠ predictions.length := fun hc => hc hlen
  have key : ∀ (f : PairwiseScoreFunc) (rs ps : List ℚ),
      m.compute ctx references = .ok rs → rs.length = references.length →
      m.compute ctx predictions = .ok ps → ps.length = predictions.length →
      (m.ToPairwise f).Compute ctx references predictions =
        .ok (List.zipWith f rs ps) := by
    intro f rs ps hrs hrslen hps hpslen
    have hmr : m.Compute ctx references = .ok rs := by
      simp [PointwiseMetric.Compute, h, hne, hrs]
    have hmp : m.Compute ctx predictions = .ok ps := by
      simp [PointwiseMetric.Compute, h, hpne, hps]
    simp only [PointwiseMetric.ToPairwise, NewPairwiseMetric,
      PairwiseMetric.Compute, h, if_neg hne, if_neg hcond, hmr, hmp]
    exact combineScores_eq_zipWith f references.length rs ps hrslen
      (by rw [hpslen, hlen])
  refine ⟨rfl, rfl, key scoreFunc, ?_, ?_, ?_⟩
  · intro rs ps hrs hrslen hps hpslen j hj
    rw [key DifferenceScore rs ps hrs hrslen hps hpslen]
    have hjr : j < rs.length := by rw [hrslen]; exact hj
    have hjp : j < ps.length := by rw [hpslen, ← hlen]; exact hj
    have hjz : j < (List.zipWith DifferenceScore rs ps).length := by
      rw [List.length_zipWith]; omega
    show (List.zipWith DifferenceScore rs ps).getD j 0 = ps.getD j 0 - rs.getD j 0
    rw [List.getD_eq_getElem _ 0 hjz, List.getD_eq_getElem _ 0 hjp,
      List.getD_eq_getElem _ 0 hjr, List.getElem_zipWith]
    rfl
  · intro err herr
    have hmr : m.Compute ctx references = .error err := by
      simp [PointwiseMetric.Compute, h, hne, herr]
    simp only [PointwiseMetric.ToPairwise, NewPairwiseMetric,
      PairwiseMetric.Compute, h, if_neg hne, if_neg hcond, hmr]
  · intro rs err hrs herr
    have hmr : m.Compute ctx references = .ok rs := by
      simp [PointwiseMetric.Compute, h, hne, hrs]
    have hmp : m.Compute ctx predictions = .error err := by
      simp [PointwiseMetric.Compute, h, hpne, herr]
    simp only [PointwiseMetric.ToPairwise, NewPairwiseMetric,
      PairwiseMetric.Compute, h, if_neg hne, if_neg hcond, hmr, hmp]

/-- Witness for C5: the length metric adapted with the difference score on
references ["ab"] and predictions ["abcd"] scores 4 - 2, and a failing
pointwise metric propagates its error unchanged. -/
theorem C5_witness :
    (lenMetric.ToPairwise DifferenceScore).Name = "len" ∧
    (lenMetric.ToPairwise DifferenceScore).Compute ⟨none⟩ ["ab"] ["abcd"] =
      .ok [2] ∧
    (failPointwiseMetric.ToPairwise DifferenceScore).Compute ⟨none⟩ ["ab"] ["abcd"] =
      .error (.custom "pow") := by
  have h := C5_to_pairwise_adapter lenMetric DifferenceScore ⟨none⟩ ["ab"] ["abcd"]
    rfl (by decide) rfl
  have h2 := C5_to_pairwise_adapter failPointwiseMetric DifferenceScore ⟨none⟩
    ["ab"] ["abcd"] rfl (by decide) rfl
  refine ⟨h.1, ?_, h2.2.2.2.2.1 (.custom "pow") rfl⟩
  have := h.2.2.1 [2] [4] rfl rfl rfl rfl
  rw [this]
  have : List.zipWith DifferenceScore [(2 : ℚ)] [(4 : ℚ)] = [2] := by
    simp [DifferenceScore]
    norm_num
  rw [this]

/-- C3: with a non-empty batch, a live context, distinct metric names, and
every registered metric succeeding with one score per instance, the
pairwise Run succeeds; any results it returns hold one entry per instance,
each carrying that instance, a score map keyed exactly by the metric names
in registration order, and for every metric the score that metric computed
at that index. -/
theorem C3_pairwise_run_result_shape (e : PairwiseEvaluation) (ctx : Context)
    (instances : List Instance) (h : ctx.err = none)
    (hne : instances.length ≠ 0)
    (hnd : (e.metrics.map (fun m => m.Name)).Nodup)
    (hok : ∀ m ∈ e.metrics, ∃ s,
      m.Compute ctx (instances.map (fun i => i.Reference))
        (instances.map (fun i => i.Prediction)) = .ok s ∧
      s.length = instances.length) :
    (e.Run ctx instances).isOk = true ∧
    ∀ results, e.Run ctx instances = .ok results →
      results.length = instances.length ∧
      (∀ j, j < instances.length →
        (results.getD j ⟨sampleInstance, []⟩).Instance =
          instances.getD j sampleInstance ∧
        ((results.getD j ⟨sampleInstance, []⟩).MetricResults.map Prod.fst) =
          e.metrics.map (fun m => m.Name)) ∧
      (∀ m ∈ e.metrics, ∀ s,
        m.Compute ctx (instances.map (fun i => i.Reference))
          (instances.map (fun i => i.Prediction)) = .ok s →
        ∀ j, j < instances.length →
          mapGet (results.getD j ⟨sampleInstance, []⟩).MetricResults m.Name =
            some (s.getD j 0)) := by
  obtain ⟨out, hloop, houtlen, hget⟩ := runMetricLoop_trace .metricFailed
    (fun m2 => m2.Compute ctx (instances.map (fun i => i.Reference))
      (instances.map (fun i => i.Prediction)))
    (fun m2 => m2.Name) PairwiseResult.write ⟨sampleInstance, []⟩ e.metrics
    (instances.map (fun inst => { Instance := inst, MetricResults := [] }))
    (by
      intro m2 hm2
      obtain ⟨s, hs, hl⟩ := hok m2 hm2
      exact ⟨s, hs, by rw [hl]; simp⟩)
  have hrun : e.Run ctx instances = .ok out := by
    simp only [PairwiseEvaluation.Run, h, if_neg hne]
    exact hloop
  have hreslen :
      (instances.map (fun inst =>
        ({ Instance := inst, MetricResults := [] } : PairwiseResult))).length =
        instances.length := by simp
  refine ⟨by rw [hrun]; rfl, ?_⟩
  intro results hresults
  have heq : results = out := by
    rw [hrun] at hresults
    cases hresults
    rfl
  subst heq
  have hj0 : ∀ j, j < instances.length →
      (instances.map (fun inst =>
        ({ Instance := inst, MetricResults := [] } : PairwiseResult))).getD j
        ⟨sampleInstance, []⟩ =
      ⟨instances.getD j sampleInstance, []⟩ := by
    intro j hj
    rw [List.getD_eq_getElem _ _ (by simpa using hj),
      List.getD_eq_getElem _ _ hj, List.getElem_map]
  have hfold : ∀ j, j < instances.length →
      results.getD j ⟨sampleInstance, []⟩ =
      ⟨instances.getD j sampleInstance,
        (e.metrics.map (fun m =>
          (m.Name, (m.Compute ctx (instances.map (fun i => i.Reference))
            (instances.map (fun i => i.Prediction))).scores.getD j 0))).foldl
          (fun a p => mapInsert a p.1 p.2) []⟩ := by
    intro j hj
    rw [hget j (by rw [hreslen]; exact hj), hj0 j hj]
    refine (foldl_write_pairwiseResult
      (fun m2 : PairwiseMetric => m2.Name)
      (fun m2 : PairwiseMetric =>
        (m2.Compute ctx (instances.map (fun i => i.Reference))
          (instances.map (fun i => i.Prediction))).scores.getD j 0)
      e.metrics ⟨instances.getD j sampleInstance, []⟩).trans ?_
    exact congrArg
      (fun mr => PairwiseResult.mk (instances.getD j sampleInstance) mr)
      (foldl_mapInsert_pairs
        (fun m2 : PairwiseMetric => m2.Name)
        (fun m2 : PairwiseMetric =>
          (m2.Compute ctx (instances.map (fun i => i.Reference))
            (instances.map (fun i => i.Prediction))).scores.getD j 0)
        e.metrics [])
  refine ⟨by rw [houtlen, hreslen], ?_, ?_⟩
  · intro j hj
    rw [hfold j hj]
    refine ⟨rfl, ?_⟩
    have hkeys := keys_foldl_insert
      (e.metrics.map (fun m =>
        (m.Name, (m.Compute ctx (instances.map (fun i => i.Reference))
          (instances.map (fun i => i.Prediction))).scores.getD j 0))) []
      (by rw [List.map_map]; exact hnd)
      (by intro k _ hk; simp at hk)
    refine hkeys.trans ?_
    simp [List.map_map]
  · intro m hm s hs j hj
    rw [hfold j hj]
    refine mapGet_foldl_insert_nodup _ [] m.Name (s.getD j 0)
      (by rw [List.map_map]; exact hnd) ?_
    refine List.mem_map.mpr ⟨m, hm, ?_⟩
    rw [hs]
    rfl

/-- Witness for C3: two distinct metrics over a one-instance batch produce
the one result with both entries, each carrying its metric's score. -/
theorem C3_witness :
    (PairwiseEvaluation.Run ⟨"E", "", [oneMetric, twoMetric]⟩ ⟨none⟩
      [sampleInstance]).isOk = true ∧
    (([(⟨sampleInstance, [("one", 1), ("two", 2)]⟩ : PairwiseResult)]).getD 0
      ⟨sampleInstance, []⟩).MetricResults.map Prod.fst = ["one", "two"] ∧
    mapGet (([(⟨sampleInstance, [("one", 1), ("two", 2)]⟩ : PairwiseResult)]).getD 0
      ⟨sampleInstance, []⟩).MetricResults "one" = some 1 ∧
    mapGet (([(⟨sampleInstance, [("one", 1), ("two", 2)]⟩ : PairwiseResult)]).getD 0
      ⟨sampleInstance, []⟩).MetricResults "two" = some 2 := by
  have h := C3_pairwise_run_result_shape ⟨"E", "", [oneMetric, twoMetric]⟩ ⟨none⟩
    [sampleInstance] rfl (by decide) (by decide)
    (by
      intro m hm
      rcases List.mem_cons.mp hm with h1 | h1
      · subst h1; exact ⟨[1], rfl, rfl⟩
      · have : m = twoMetric := by simpa using h1
        subst this; exact ⟨[2], rfl, rfl⟩)
  have h2 := h.2 [⟨sampleInstance, [("one", 1), ("two", 2)]⟩] rfl
  refine ⟨h.1, (h2.2.1 0 (by decide)).2, ?_, ?_⟩
  · have := h2.2.2 oneMetric (by simp) [1] rfl 0 (by decide)
    exact this
  · have := h2.2.2 twoMetric (by simp) [2] rfl 0 (by decide)
    exact this

/-- Indexing the last write: filtering after projecting a write list
to its per-index values commutes with projecting the last filtered write
(the bridge between the per-index fold trace and the statement over whole
score vectors). -/
theorem getLast_filter_map_val (writes : List (String × List ℚ))
    (name : String) (j : Nat) :
    (((writes.map (fun p => (p.1, p.2.getD j 0))).filter
      (fun p => p.1 = name)).getLast?).elim (none : Option ℚ)
      (fun q => some q.2) =
    ((writes.filter (fun p => p.1 = name)).getLast?).map
      (fun p => p.2.getD j 0) := by
  rw [List.filter_map, List.getLast?_map]
  have hpred : ((fun p => decide (p.1 = name)) ∘
      (fun p : String × List ℚ => (p.1, p.2.getD j 0))) =
      (fun p : String × List ℚ => decide (p.1 = name)) := by
    funext p; rfl
  rw [hpred]
  cases (writes.filter (fun p => p.1 = name)).getLast? with
  | none => rfl
  | some q => rfl

/-- C8: with valid inputs and well-behaved metrics, the combined Run
succeeds (name collisions raise no error), and each result map is exactly
the left fold of the writes of all pairwise metrics followed by all
pointwise metrics, each group in registration order: a lookup returns the
per-index value of the last write with that name, so a later metric
silently overwrites an earlier one with the same name. -/
theorem C8_combined_populate_order_last_writer_wins (e : Evaluation)
    (ctx : Context) (instances : List Instance) (predictions : List String)
    (h : ctx.err = none) (hne : instances.length ≠ 0)
    (hlen : instances.length = predictions.length)
    (hpw : ∀ m ∈ e.pairwiseMetrics, ∃ s,
      m.Compute ctx (instances.map (fun i => i.Reference)) predictions = .ok s ∧
      s.length = instances.length)
    (hpt : ∀ m ∈ e.pointwiseMetrics, ∃ s,
      m.Compute ctx predictions = .ok s ∧ s.length = instances.length) :
    (e.Run ctx instances predictions).isOk = true ∧
    ∀ results, e.Run ctx instances predictions = .ok results →
      results.length = instances.length ∧
      ∀ j, j < instances.length → ∀ name,
        mapGet (results.getD j ⟨sampleInstance, []⟩).MetricResults name =
          (((e.pairwiseMetrics.map (fun m =>
              (m.Name, (m.Compute ctx (instances.map (fun i => i.Reference))
                predictions).scores)) ++
             e.pointwiseMetrics.map (fun m =>
              (m.Name, (m.Compute ctx predictions).scores))).filter
            (fun p => p.1 = name)).getLast?).map (fun p => p.2.getD j 0) := by
  have hcond : ¬ instances.length ≠ predictions.length := fun hc => hc hlen
  have hreslen0 : (instances.map (fun inst =>
      ({ Instance := inst, MetricResults := [] } : Result))).length =
      instances.length := by simp
  obtain ⟨out1, hloop1, hlen1, hget1⟩ := runMetricLoop_trace .pairwiseMetricFailed
    (fun m2 => m2.Compute ctx (instances.map (fun i => i.Reference)) predictions)
    (fun m2 => m2.Name) Result.write ⟨sampleInstance, []⟩ e.pairwiseMetrics
    (instances.map (fun inst => { Instance := inst, MetricResults := [] }))
    (by
      intro m2 hm2
      obtain ⟨s, hs, hl⟩ := hpw m2 hm2
      exact ⟨s, hs, by rw [hl, hreslen0]⟩)
  obtain ⟨out2, hloop2, hlen2, hget2⟩ := runMetricLoop_trace .pointwiseMetricFailed
    (fun m2 => m2.Compute ctx predictions)
    (fun m2 => m2.Name) Result.write ⟨sampleInstance, []⟩ e.pointwiseMetrics out1
    (by
      intro m2 hm2
      obtain ⟨s, hs, hl⟩ := hpt m2 hm2
      exact ⟨s, hs, by rw [hl, hlen1, hreslen0]⟩)
  have hrun : e.Run ctx instances predictions = .ok out2 := by
    simp only [Evaluation.Run, h, if_neg hne, if_neg hcond, hloop1]
    exact hloop2
  refine ⟨by rw [hrun]; rfl, ?_⟩
  intro results hres
  have heq : results = out2 := by rw [hrun] at hres; cases hres; rfl
  subst heq
  refine ⟨by rw [hlen2, hlen1, hreslen0], ?_⟩
  intro j hj name
  have hjm : j < (instances.map (fun inst =>
      ({ Instance := inst, MetricResults := [] } : Result))).length := by
    rw [hreslen0]; exact hj
  have hj1 : j < out1.length := by rw [hlen1, hreslen0]; exact hj
  have e0 : (instances.map (fun inst =>
      ({ Instance := inst, MetricResults := [] } : Result))).getD j
      ⟨sampleInstance, []⟩ = ⟨instances.getD j sampleInstance, []⟩ := by
    rw [List.getD_eq_getElem _ _ hjm, List.getD_eq_getElem _ _ hj,
      List.getElem_map]
  have e1 : out1.getD j ⟨sampleInstance, []⟩ =
      ⟨instances.getD j sampleInstance,
       (e.pairwiseMetrics.map (fun m =>
         (m.Name, (m.Compute ctx (instances.map (fun i => i.Reference))
           predictions).scores.getD j 0))).foldl
         (fun a p => mapInsert a p.1 p.2) []⟩ := by
    rw [hget1 j hjm, e0]
    refine (foldl_write_result
      (fun m2 : PairwiseMetric => m2.Name)
      (fun m2 : PairwiseMetric =>
        (m2.Compute ctx (instances.map (fun i => i.Reference))
          predictions).scores.getD j 0)
      e.pairwiseMetrics ⟨instances.getD j sampleInstance, []⟩).trans ?_
    exact congrArg
      (fun mr => Result.mk (instances.getD j sampleInstance) mr)
      (foldl_mapInsert_pairs
        (fun m2 : PairwiseMetric => m2.Name)
        (fun m2 : PairwiseMetric =>
          (m2.Compute ctx (instances.map (fun i => i.Reference))
            predictions).scores.getD j 0)
        e.pairwiseMetrics [])
  have e2 : results.getD j ⟨sampleInstance, []⟩ =
      ⟨instances.getD j sampleInstance,
       (e.pairwiseMetrics.map (fun m =>
           (m.Name, (m.Compute ctx (instances.map (fun i => i.Reference))
             predictions).scores.getD j 0)) ++
         e.pointwiseMetrics.map (fun m =>
           (m.Name, (m.Compute ctx predictions).scores.getD j 0))).foldl
         (fun a p => mapInsert a p.1 p.2) []⟩ := by
    rw [hget2 j hj1, e1]
    refine (foldl_write_result
      (fun m2 : PointwiseMetric => m2.Name)
      (fun m2 : PointwiseMetric => (m2.Compute ctx predictions).scores.getD j 0)
      e.pointwiseMetrics _).trans ?_
    refine congrArg
      (fun mr => Result.mk (instances.getD j sampleInstance) mr) ?_
    rw [List.foldl_append]
    exact foldl_mapInsert_pairs
      (fun m2 : PointwiseMetric => m2.Name)
      (fun m2 : PointwiseMetric => (m2.Compute ctx predictions).scores.getD j 0)
      e.pointwiseMetrics _
  rw [e2]
  have hlists :
      ((e.pairwiseMetrics.map (fun m =>
          (m.Name, (m.Compute ctx (instances.map (fun i => i.Reference))
            predictions).scores)) ++
        e.pointwiseMetrics.map (fun m =>
          (m.Name, (m.Compute ctx predictions).scores))).map
        (fun p => (p.1, p.2.getD j 0))) =
      (e.pairwiseMetrics.map (fun m =>
          (m.Name, (m.Compute ctx (instances.map (fun i => i.Reference))
            predictions).scores.getD j 0)) ++
        e.pointwiseMetrics.map (fun m =>
          (m.Name, (m.Compute ctx predictions).scores.getD j 0))) := by
    rw [List.map_append, List.map_map, List.map_map]
    rfl
  rw [mapGet_foldl_insert, ← hlists]
  exact getLast_filter_map_val _ name j

/-- Witness for C8: a pairwise metric and a pointwise metric both named
two; the pointwise write lands last, so the merged map holds its value 9,
and the Run succeeds despite the collision. -/
theorem C8_witness :
    (Evaluation.Run ⟨"E", "", [twoMetric], [nineMetric]⟩ ⟨none⟩
      [sampleInstance] ["p"]).isOk = true ∧
    mapGet (([(⟨sampleInstance, [("two", 9)]⟩ : Result)]).getD 0
      ⟨sampleInstance, []⟩).MetricResults "two" = some 9 := by
  have h := C8_combined_populate_order_last_writer_wins
    ⟨"E", "", [twoMetric], [nineMetric]⟩ ⟨none⟩ [sampleInstance] ["p"]
    rfl (by decide) rfl
    (by
      intro m hm
      have : m = twoMetric := by simpa using hm
      subst this
      exact ⟨[2], rfl, rfl⟩)
    (by
      intro m hm
      have : m = nineMetric := by simpa using hm
      subst this
      exact ⟨[9], rfl, rfl⟩)
  have h2 := h.2 [⟨sampleInstance, [("two", 9)]⟩] rfl
  exact ⟨h.1, (h2.2 0 (by decide) "two").trans rfl⟩

/-- Dropping then indexing with a default is indexing at the shifted
position. -/
theorem getD_drop {α : Type} (d : α) :
    ∀ (i : Nat) (l : List α) (k : Nat),
    (l.drop i).getD k d = l.getD (i + k) d := by
  intro i
  induction i with
  | zero => intro l k; simp
  | succ n ih =>
    intro l k
    cases l with
    | nil => simp
    | cons a as =>
      rw [List.drop_succ_cons, ih as k]
      have : n + 1 + k = (n + k) + 1 := by omega
      rw [this]
      rfl

/-- C1 (amended): only the eval.go Run variant checks the returned score
count, failing with an error naming the metric and the observed and
expected counts; PairwiseEvaluation.Run has no such check, so a metric
returning fewer scores than instances yields a successful Run whose
results at the unwritten indices lack that metric's entry. -/
theorem C1_score_count_check (ctx : Context) (h : ctx.err = none) :
    (∀ (e : EvalV2.Evaluation) (instances : List Instance)
       (predictions : List String) (pre post : List EvalV2.PairwiseMetric)
       (m : EvalV2.PairwiseMetric) (scores : List ℚ),
      e.pairwiseMetrics = pre ++ m :: post →
      (∀ m2 ∈ pre, ∃ s, m2.Compute ctx (instances.map (fun i => i.Reference))
        predictions = .ok s ∧ s.length = instances.length) →
      m.Compute ctx (instances.map (fun i => i.Reference)) predictions = .ok scores →
      scores.length ≠ instances.length →
      e.Run ctx instances predictions =
        .error (.pairwiseScoreCount m.Name scores.length instances.length)) ∧
    (∀ (e : PairwiseEvaluation) (instances : List Instance)
       (m : PairwiseMetric) (scores : List ℚ),
      instances.length ≠ 0 →
      e.metrics = [m] →
      m.Compute ctx (instances.map (fun i => i.Reference))
        (instances.map (fun i => i.Prediction)) = .ok scores →
      scores.length ≤ instances.length →
      (e.Run ctx instances).isOk = true ∧
      ∀ results, e.Run ctx instances = .ok results →
        ∀ j, scores.length ≤ j → j < instances.length →
          mapGet (results.getD j ⟨sampleInstance, []⟩).MetricResults m.Name = none) := by
  constructor
  · intro e instances predictions pre post m scores hsplit hpre hm hcount
    obtain ⟨mid, hmidlen, hrun⟩ := runMetricLoopChecked_append
      .pairwiseMetricFailed .pairwiseScoreCount instances.length
      (fun m2 => m2.Compute ctx (instances.map (fun i => i.Reference)) predictions)
      (fun m2 => m2.Name) EvalV2.Result.write pre (m :: post)
      (instances.map (fun inst => { Instance := inst, MetricResults := [] }))
      (by
        intro m2 hm2
        obtain ⟨s, hs, hl⟩ := hpre m2 hm2
        exact ⟨s, hs, by rw [hl]; simp, hl⟩)
    have herr := runMetricLoopChecked_count_error
      .pairwiseMetricFailed .pairwiseScoreCount instances.length
      (fun m2 => m2.Compute ctx (instances.map (fun i => i.Reference)) predictions)
      (fun m2 => m2.Name) EvalV2.Result.write m post mid scores hm hcount
    simp only [EvalV2.Evaluation.Run, h, hsplit, hrun, herr]
  · intro e instances m scores hne hsplit hm hle
    have hreslen0 : (instances.map (fun inst =>
        ({ Instance := inst, MetricResults := [] } : PairwiseResult))).length =
        instances.length := by simp
    have hw := writeScores_eq (PairwiseResult.write m.Name) scores
      (instances.map (fun inst => { Instance := inst, MetricResults := [] }))
      (by rw [hreslen0]; exact hle)
    have hrun : e.Run ctx instances = .ok
        (List.zipWith (PairwiseResult.write m.Name)
          (instances.map (fun inst => { Instance := inst, MetricResults := [] }))
          scores ++
        (instances.map (fun inst =>
          ({ Instance := inst, MetricResults := [] } : PairwiseResult))).drop
          scores.length) := by
      simp only [PairwiseEvaluation.Run, h, if_neg hne, hsplit, runMetricLoop,
        hm, hw]
    refine ⟨by rw [hrun]; rfl, ?_⟩
    intro results hres j hjs hjn
    rw [hrun] at hres
    injection hres with hres2
    subst hres2
    have hzlen : (List.zipWith (PairwiseResult.write m.Name)
        (instances.map (fun inst => { Instance := inst, MetricResults := [] }))
        scores).length = scores.length := by
      rw [List.length_zipWith, hreslen0]
      omega
    rw [List.getD_append_right _ _ _ j (by rw [hzlen]; exact hjs), hzlen,
      getD_drop _ scores.length _ (j - scores.length)]
    have : scores.length + (j - scores.length) = j := by omega
    rw [this, List.getD_eq_getElem _ _ (by rw [hreslen0]; exact hjn),
      List.getElem_map]
    rfl

/-- Witness for C1: the eval.go runner rejects the short metric with the
score-count error, while the same amended theorem's truncation half yields
success with an entry-less result at index 0 for the short metric. -/
theorem C1_witness :
    EvalV2.Evaluation.Run
      ⟨"E", "", [⟨"short2", "", fun _ _ _ => .ok []⟩], []⟩ ⟨none⟩
      [sampleInstance] ["p"] = .error (.pairwiseScoreCount "short2" 0 1) ∧
    (PairwiseEvaluation.Run ⟨"E", "", [shortMetric]⟩ ⟨none⟩
      [sampleInstance]).isOk = true ∧
    mapGet (([(⟨sampleInstance, []⟩ : PairwiseResult)]).getD 0
      ⟨sampleInstance, []⟩).MetricResults "short" = none := by
  have h := C1_score_count_check ⟨none⟩ rfl
  refine ⟨?_, ?_, ?_⟩
  · exact h.1 ⟨"E", "", [⟨"short2", "", fun _ _ _ => .ok []⟩], []⟩
      [sampleInstance] ["p"] [] [] ⟨"short2", "", fun _ _ _ => .ok []⟩ []
      rfl (by intro m2 hm2; simp at hm2) rfl (by decide)
  · exact (h.2 ⟨"E", "", [shortMetric]⟩ [sampleInstance] shortMetric []
      (by decide) rfl rfl (by decide)).1
  · exact (h.2 ⟨"E", "", [shortMetric]⟩ [sampleInstance] shortMetric []
      (by decide) rfl rfl (by decide)).2 [⟨sampleInstance, []⟩] rfl 0
      (by decide) (by decide)

/-- Every score the StringSimilarity loop emits is one of its three
literals. -/
theorem stringSimilarityScores_mem :
    ∀ (references predictions : List String) (scores : List ℚ),
    metrics.stringSimilarityScores references predictions = .ok scores →
    ∀ s ∈ scores, s = 0 ∨ s = 1/2 ∨ s = 1 := by
  intro references
  induction references with
  | nil =>
    intro predictions scores hok s hs
    cases predictions <;> simp [metrics.stringSimilarityScores] at hok <;>
      subst hok <;> simp at hs
  | cons r rs ih =>
    intro predictions scores hok s hs
    cases predictions with
    | nil => simp [metrics.stringSimilarityScores] at hok
    | cons p ps =>
      rcases hrec : metrics.stringSimilarityScores rs ps with rest | e2 | _ <;>
        rw [metrics.stringSimilarityScores, hrec] at hok
      · injection hok with hok2
        subst hok2
        rcases List.mem_cons.mp hs with h1 | h1
        · subst h1
          split_ifs <;> norm_num
        · exact ih ps rest hrec s h1
      · simp at hok
      · simp at hok

/-- The per-pair Jaccard word-overlap score lies in the unit interval. -/
theorem wordOverlapScore_bounds (r p : String) :
    0 ≤ metrics.wordOverlapScore r p ∧ metrics.wordOverlapScore r p ≤ 1 := by
  simp only [metrics.wordOverlapScore]
  split_ifs with h1 h2
  · norm_num
  · norm_num
  · push_neg at h2
    have hrne : metrics.splitIntoWords r ≠ [] := by
      intro hnil
      exact h2.1 (by rw [hnil]; rfl)
    obtain ⟨w, hw⟩ := List.exists_mem_of_ne_nil _ hrne
    have hrcard : 1 ≤ (metrics.splitIntoWords r).toFinset.card :=
      Finset.card_pos.mpr ⟨w, List.mem_toFinset.mpr hw⟩
    have hinterR : ((metrics.splitIntoWords r).toFinset.filter
        (fun word => word ∈ (metrics.splitIntoWords p).toFinset)).card ≤
        (metrics.splitIntoWords r).toFinset.card :=
      Finset.card_filter_le _ _
    have hinterP : ((metrics.splitIntoWords r).toFinset.filter
        (fun word => word ∈ (metrics.splitIntoWords p).toFinset)).card ≤
        (metrics.splitIntoWords p).toFinset.card := by
      refine Finset.card_le_card ?_
      intro x hx
      exact (Finset.mem_filter.mp hx).2
    have hupos : 0 < (metrics.splitIntoWords r).toFinset.card +
        (metrics.splitIntoWords p).toFinset.card -
        ((metrics.splitIntoWords r).toFinset.filter
          (fun word => word ∈ (metrics.splitIntoWords p).toFinset)).card := by
      omega
    have hinterle : ((metrics.splitIntoWords r).toFinset.filter
        (fun word => word ∈ (metrics.splitIntoWords p).toFinset)).card ≤
        (metrics.splitIntoWords r).toFinset.card +
        (metrics.splitIntoWords p).toFinset.card -
        ((metrics.splitIntoWords r).toFinset.filter
          (fun word => word ∈ (metrics.splitIntoWords p).toFinset)).card := by
      omega
    constructor
    · exact div_nonneg (Nat.cast_nonneg _) (Nat.cast_nonneg _)
    · rw [div_le_one (by exact_mod_cast hupos)]
      exact_mod_cast hinterle

/-- Every score the WordOverlap loop emits lies in the unit interval. -/
theorem wordOverlapScores_mem :
    ∀ (references predictions : List String) (scores : List ℚ),
    metrics.wordOverlapScores references predictions = .ok scores →
    ∀ s ∈ scores, 0 ≤ s ∧ s ≤ 1 := by
  intro references
  induction references with
  | nil =>
    intro predictions scores hok s hs
    cases predictions <;> simp [metrics.wordOverlapScores] at hok <;>
      subst hok <;> simp at hs
  | cons r rs ih =>
    intro predictions scores hok s hs
    cases predictions with
    | nil => simp [metrics.wordOverlapScores] at hok
    | cons p ps =>
      rcases hrec : metrics.wordOverlapScores rs ps with rest | e2 | _ <;>
        rw [metrics.wordOverlapScores, hrec] at hok
      · injection hok with hok2
        subst hok2
        rcases List.mem_cons.mp hs with h1 | h1
        · subst h1
          exact wordOverlapScore_bounds r p
        · exact ih ps rest hrec s h1
      · simp at hok
      · simp at hok

/-- The keyword-presence fraction lies in the unit interval. -/
theorem keywordPresenceScore_bounds (p : String) :
    0 ≤ metrics.keywordPresenceScore p ∧ metrics.keywordPresenceScore p ≤ 1 := by
  simp only [metrics.keywordPresenceScore]
  have hcount : (metrics.keywords.filter (fun keyword =>
      metrics.goContains (metrics.goToLower p) (metrics.goToLower keyword))).length ≤
      metrics.keywords.length :=
    List.length_filter_le _ _
  constructor
  · exact div_nonneg (Nat.cast_nonneg _) (Nat.cast_nonneg _)
  · rw [div_le_one (by norm_num [metrics.keywords])]
    exact_mod_cast hcount

/-- C10: the built-in metric scores are bounded for every input batch:
StringSimilarity emits only 0, 0.5 or 1, and WordOverlap and
KeywordPresence emit only values in the closed unit interval. -/
theorem C10_builtin_metric_scores_bounded :
    (∀ (ctx : Context) (references predictions : List String) (scores : List ℚ),
      metrics.StringSimilarity.compute ctx references predictions = .ok scores →
      ∀ s ∈ scores, s = 0 ∨ s = 1/2 ∨ s = 1) ∧
    (∀ (ctx : Context) (references predictions : List String) (scores : List ℚ),
      metrics.WordOverlap.compute ctx references predictions = .ok scores →
      ∀ s ∈ scores, 0 ≤ s ∧ s ≤ 1) ∧
    (∀ (ctx : Context) (predictions : List String) (scores : List ℚ),
      metrics.KeywordPresence.compute ctx predictions = .ok scores →
      ∀ s ∈ scores, 0 ≤ s ∧ s ≤ 1) := by
  refine ⟨?_, ?_, ?_⟩
  · intro ctx references predictions scores hok
    exact stringSimilarityScores_mem references predictions scores hok
  · intro ctx references predictions scores hok
    exact wordOverlapScores_mem references predictions scores hok
  · intro ctx predictions scores hok s hs
    have : scores = predictions.map metrics.keywordPresenceScore := by
      simpa [metrics.KeywordPresence, NewPointwiseMetric,
        metrics.keywords] using hok.symm
    subst this
    obtain ⟨q, _, hq⟩ := List.mem_map.mp hs
    rw [← hq]
    exact keywordPresenceScore_bounds q

/-- Witness for C10: each bound instantiated on the end-to-end examples:
identical strings, the cat/dog sentences, and a prediction containing one
of three keywords. -/
theorem C10_witness :
    ((1 : ℚ) = 0 ∨ (1 : ℚ) = 1/2 ∨ (1 : ℚ) = 1) ∧
    (0 ≤ metrics.wordOverlapScore "a cat sat" "a dog sat" ∧
      metrics.wordOverlapScore "a cat sat" "a dog sat" ≤ 1) ∧
    (0 ≤ metrics.keywordPresenceScore "this is important" ∧
      metrics.keywordPresenceScore "this is important" ≤ 1) := by
  have h := C10_builtin_metric_scores_bounded
  refine ⟨?_, ?_, ?_⟩
  · exact h.1 ⟨none⟩ ["a cat sat"] ["a cat sat"] [1] rfl 1 (by simp)
  · exact h.2.1 ⟨none⟩ ["a cat sat"] ["a dog sat"]
      [metrics.wordOverlapScore "a cat sat" "a dog sat"] rfl _ (by simp)
  · exact h.2.2 ⟨none⟩ ["this is important"]
      [metrics.keywordPresenceScore "this is important"] rfl _ (by simp)

end EvalGo
